import Mathlib

/-!
# Verification of the VCS++ repository-scaffolding core

Shallow embedding of the C++ sources (`Repository.cpp`, `Repository.hpp`,
`CommandLine.hpp`, `VCS.cpp`) of a from-scratch version-control system.
The filesystem is modelled as an explicit state value; `std::cout` output is
collected into a list of printed lines; `throw std::runtime_error` becomes an
`Except` error carrying the thrown message.
-/

/-- A thrown C++ exception. The source only ever throws
`std::runtime_error(msg)`, an untagged exception carrying a message string. -/
inductive CppExn where
  | runtimeError (msg : String)
deriving DecidableEq, Repr

/-- Model filesystem state: the set of existing directories (by path string)
and the existing files with their byte content (bytes as `Char`s, the source
only ever writes narrow-character streams). -/
structure FS where
  dirs : List String
  files : List (String × List Char)
deriving DecidableEq, Repr

/-- All existing paths (directories and files). -/
def FS.entryPaths (fs : FS) : List String :=
  fs.dirs ++ fs.files.map Prod.fst

/-- `std::filesystem::exists`: the path names an existing entry. -/
def FS.existsPath (fs : FS) (p : String) : Bool :=
  fs.entryPaths.contains p

/-- `std::filesystem::is_directory`. -/
def FS.isDirectory (fs : FS) (p : String) : Bool :=
  fs.dirs.contains p

/-- `q` lies at or below the path `d` (string-prefix on the raw path text;
the metadata directory path ends in a separator, so everything stored inside
it extends it textually). -/
def pathUnder (d q : String) : Bool :=
  decide (d.data <+: q.data)

/-- `std::filesystem::is_empty` on a directory: no existing entry lies
strictly below it. -/
def FS.isEmptyDir (fs : FS) (p : String) : Bool :=
  fs.entryPaths.all fun q => !(pathUnder p q) || q == p

/-- `std::filesystem::create_directories`: records the directory. -/
def FS.createDirectories (fs : FS) (p : String) : FS :=
  if fs.dirs.contains p then fs else { fs with dirs := p :: fs.dirs }

/-- `std::ofstream` creation plus `write` plus `close`: the file now holds
exactly the given bytes. -/
def FS.writeFile (fs : FS) (p : String) (content : List Char) : FS :=
  { fs with files := (p, content) :: fs.files.filter fun e => e.1 ≠ p }

/-- Content of the file at `p`, if one exists. -/
def FS.fileContent (fs : FS) (p : String) : Option (List Char) :=
  (fs.files.find? fun e => e.1 == p).map Prod.snd

/-- The bytes produced by `std::ostream::write(lit, count)` on a string
literal `lit`: the literal's characters, then its NUL terminator, then
`count - lit.length - 1` bytes read past the end of the literal's storage —
undefined behavior in the C++ source, modelled by an arbitrary memory
environment `mem` giving the bytes that happen to follow the literal. -/
def writeBytes (mem : Nat → Char) (lit : String) (count : Nat) : List Char :=
  (List.range count).map fun i =>
    if i < lit.length then lit.data.getD i 'A'
    else if i = lit.length then Char.ofNat 0
    else mem (i - lit.length - 1)

/-- The `Repository` class: worktree path and metadata-directory path. -/
structure Repository where
  m_worktree : String
  m_vcsdir : String
deriving DecidableEq, Repr

/-- `Repository::Repository(path)`: sets `m_worktree = path`,
`m_vcsdir = path + "\\.VCS++\\"`, and prints the metadata path to
`std::cout`. Returns the constructed object and the printed lines. -/
def Repository.construct (path : String) : Repository × List String :=
  ({ m_worktree := path, m_vcsdir := path ++ "\\.VCS++\\" },
   [path ++ "\\.VCS++\\" ++ " : Path for the VCS++ !"])

/-- `Repository::RepositoryPath(path, create)`: joins `m_vcsdir` with each
element, each prefixed by `"\\"`; when `create` is set it creates the
directory and prints a diagnostic line. Returns the path string, the updated
filesystem, and the printed lines. -/
def Repository.RepositoryPath (repo : Repository) (path : List String)
    (create : Bool) (fs : FS) : String × FS × List String :=
  let result := path.foldl (fun acc elem => acc ++ "\\" ++ elem) repo.m_vcsdir
  if create then
    (result, fs.createDirectories result,
     ["Created a Directory named " ++ result ++ "."])
  else
    (result, fs, [])

/-- The `description` string literal written by `InitRepository`. -/
def descLit : String :=
  "Unnamed repository; edit this file 'description' to name the repository.\n"

/-- The `HEAD` string literal written by `InitRepository`. -/
def headLit : String := "ref: refs/heads/master\n"

/-- `Repository::InitRepository()`: checks that the worktree is a directory
(else throws), checks that the metadata directory, when it exists, is empty
(else throws), then scaffolds `branches`, `objects`, `refs\tags`,
`refs\heads` and writes `description` and `HEAD` — each with
`ostream::write(lit, 1024)`, so each file receives 1024 bytes even though
the literals are far shorter (`mem i` supplies the out-of-bounds bytes of
the `i`-th write). Returns the thrown-or-ok outcome, the filesystem after
the call, and the printed lines. -/
def Repository.InitRepository (repo : Repository) (mem : Nat → Nat → Char)
    (fs : FS) : Except CppExn Unit × FS × List String :=
  if !(fs.isDirectory repo.m_worktree) then
    (.error (.runtimeError (repo.m_worktree ++ " is not a directory !")), fs, [])
  else if fs.existsPath repo.m_vcsdir && !(fs.isEmptyDir repo.m_vcsdir) then
    (.error (.runtimeError
       (repo.m_vcsdir ++ " already exists and contains files !")), fs, [])
  else
    let r1 := repo.RepositoryPath ["branches"] true fs
    let r2 := repo.RepositoryPath ["objects"] true r1.2.1
    let r3 := repo.RepositoryPath ["refs", "tags"] true r2.2.1
    let r4 := repo.RepositoryPath ["refs", "heads"] true r3.2.1
    let fs5 := r4.2.1.writeFile (repo.m_vcsdir ++ "description")
      (writeBytes (mem 0) descLit 1024)
    let fs6 := fs5.writeFile (repo.m_vcsdir ++ "HEAD")
      (writeBytes (mem 1) headLit 1024)
    (.ok (), fs6, r1.2.2 ++ r2.2.2 ++ r3.2.2 ++ r4.2.2)

/-- The metadata-directory path the constructor builds for a worktree. -/
def vcsdirStr (w : String) : String := w ++ "\\.VCS++\\"

/-- Path of the `branches` scaffold directory. -/
def branchesPath (w : String) : String := vcsdirStr w ++ "\\branches"

/-- Path of the `objects` scaffold directory. -/
def objectsPath (w : String) : String := vcsdirStr w ++ "\\objects"

/-- Path of the `refs\tags` scaffold directory. -/
def refsTagsPath (w : String) : String := vcsdirStr w ++ "\\refs\\tags"

/-- Path of the `refs\heads` scaffold directory. -/
def refsHeadsPath (w : String) : String := vcsdirStr w ++ "\\refs\\heads"

/-- The core operations reachable from `VCS::run`. The body of `run`
contains a single `if (command == "init") init();` — no other command is
examined. -/
inductive CoreOp where
  | init
deriving DecidableEq, Repr

/-- The command dispatch performed by `VCS::run` after `CommandLine::Parse`:
`init` calls the core; every other command string falls through the single
`if` and is ignored. -/
def VCS.dispatch (cmd : String) : Option CoreOp :=
  if cmd == "init" then some CoreOp.init else none

/-- The command set named by the spec's external-interface section. -/
def specCommands : List String :=
  ["init", "add", "commit", "status", "log", "checkout", "branch", "reset",
   "show"]

/-- The spec's words, for comparison with `Repository.RepositoryPath`:
internal paths join segments with forward-slash separators. -/
def repositoryPathSpec (vcsdir : String) (segs : List String) : String :=
  segs.foldl (fun acc elem => acc ++ "/" ++ elem) vcsdir

/-! ## Object store, modelled from the spec

`src/` contains no object-store implementation at all (the repository is a
scaffolding-only skeleton), so the store is modelled from the spec: objects
of four kinds, serialized as `"<type> <size>\0<payload>"`, stored keyed by a
hash of the serialized form; `Put` is a no-op when the id is already
present; `Get` fails `NotFound` when absent and `CorruptObject` when the
stored bytes do not hash back to the requested id. -/

/-- Modelled from the spec: the four object kinds. -/
inductive ObjType where
  | blob
  | tree
  | commit
  | tag
deriving DecidableEq, Repr

/-- Modelled from the spec: the type name used in the serialized header. -/
def ObjType.name : ObjType → String
  | .blob => "blob"
  | .tree => "tree"
  | .commit => "commit"
  | .tag => "tag"

/-- Decimal digits of a natural number, most significant first. -/
def natDigits (n : Nat) : List Char :=
  if h : n < 10 then [Char.ofNat (48 + n)]
  else natDigits (n / 10) ++ [Char.ofNat (48 + n % 10)]
decreasing_by exact Nat.div_lt_self (by omega) (by omega)

/-- Modelled from the spec: serialization of an object,
`"<type> <size>\0<payload>"`. -/
def serializeObj (t : ObjType) (payload : List Char) : List Char :=
  (t.name.data ++ ' ' :: natDigits payload.length) ++ Char.ofNat 0 :: payload

/-- Modelled from the spec: errors `Get` can report. -/
inductive StoreErr where
  | NotFound
  | CorruptObject
deriving DecidableEq, Repr

/-- Modelled from the spec: the content-addressed store, an association of
ids to typed payloads. The id type `α` and the hash function over serialized
bytes are parameters. -/
structure ObjectStore (α : Type) where
  entries : List (α × (ObjType × List Char))

/-- Modelled from the spec: `Put(type, payload)` — serializes, hashes,
stores keyed by the hash unless already present, returns the id and the
updated store. -/
def ObjectStore.put {α : Type} [DecidableEq α] (hash : List Char → α)
    (s : ObjectStore α) (t : ObjType) (payload : List Char) :
    α × ObjectStore α :=
  let i := hash (serializeObj t payload)
  if (s.entries.find? fun e => e.1 == i).isSome then (i, s)
  else (i, ⟨(i, (t, payload)) :: s.entries⟩)

/-- Modelled from the spec: `Get(id)` — `NotFound` if absent,
`CorruptObject` if the stored bytes do not hash to `id`. -/
def ObjectStore.get {α : Type} [DecidableEq α] (hash : List Char → α)
    (s : ObjectStore α) (i : α) : Except StoreErr (ObjType × List Char) :=
  match s.entries.find? fun e => e.1 == i with
  | none => .error .NotFound
  | some (_, (t, p)) =>
      if hash (serializeObj t p) == i then .ok (t, p)
      else .error .CorruptObject

/-- A store is well-formed when every entry is keyed by the hash of its own
serialized content — the invariant `Put` establishes. -/
def ObjectStore.wf {α : Type} (hash : List Char → α) (s : ObjectStore α) :
    Prop :=
  ∀ e ∈ s.entries, hash (serializeObj e.2.1 e.2.2) = e.1

deriving instance DecidableEq for Except

/-! ## Helper lemmas -/

theorem pathUnder_refl (a : String) : pathUnder a a = true :=
  decide_eq_true (List.prefix_refl a.data)

theorem pathUnder_append (a s : String) : pathUnder a (a ++ s) = true := by
  unfold pathUnder
  rw [String.data_append]
  exact decide_eq_true (List.prefix_append a.data s.data)

theorem pathUnder_trans {a b c : String} (h1 : pathUnder a b = true)
    (h2 : pathUnder b c = true) : pathUnder a c = true :=
  decide_eq_true ((of_decide_eq_true h1).trans (of_decide_eq_true h2))

theorem pathUnder_append_left (w a b : String) :
    pathUnder (w ++ a) (w ++ b) = pathUnder a b := by
  simp only [pathUnder, String.data_append, decide_eq_decide]
  exact List.prefix_append_right_inj w.data

theorem dirs_writeFile (fs : FS) (p : String) (c : List Char) :
    (fs.writeFile p c).dirs = fs.dirs := rfl

theorem mem_dirs_createDirectories_self (fs : FS) (p : String) :
    p ∈ (fs.createDirectories p).dirs := by
  by_cases h : p ∈ fs.dirs <;> simp [FS.createDirectories, h]

theorem mem_dirs_createDirectories_mono (fs : FS) (p q : String)
    (h : q ∈ fs.dirs) : q ∈ (fs.createDirectories p).dirs := by
  by_cases hc : p ∈ fs.dirs <;> simp [FS.createDirectories, hc, h]

theorem entryPaths_createDirectories (fs : FS) (p q : String)
    (h : q ∈ (fs.createDirectories p).entryPaths) :
    q = p ∨ q ∈ fs.entryPaths := by
  by_cases hc : p ∈ fs.dirs
  · simp only [FS.createDirectories, List.elem_eq_mem, hc, decide_True,
      if_true] at h
    exact Or.inr h
  · simp [FS.createDirectories, hc] at h
    simp only [FS.entryPaths, List.cons_append, List.mem_cons,
      List.mem_append] at h ⊢
    tauto

theorem entryPaths_writeFile (fs : FS) (p : String) (c : List Char)
    (q : String) (h : q ∈ (fs.writeFile p c).entryPaths) :
    q = p ∨ q ∈ fs.entryPaths := by
  simp only [FS.writeFile, FS.entryPaths, List.map_cons, List.mem_append,
    List.mem_cons, List.mem_map, List.mem_filter] at h ⊢
  rcases h with h | h | ⟨e, ⟨he, _⟩, hq⟩
  · exact Or.inr (Or.inl h)
  · exact Or.inl h
  · exact Or.inr (Or.inr ⟨e, he, hq⟩)

theorem foldl_sep_eq_intercalate_go (sep : String) (segs : List String) :
    ∀ init : String,
      segs.foldl (fun acc elem => acc ++ sep ++ elem) init
        = String.intercalate.go init sep segs := by
  induction segs with
  | nil => intro init; rfl
  | cons a as ih =>
      intro init
      simp only [List.foldl_cons, String.intercalate.go]
      exact ih (init ++ sep ++ a)

theorem foldl_sep_eq_intercalate (sep init : String) (segs : List String) :
    segs.foldl (fun acc elem => acc ++ sep ++ elem) init
      = String.intercalate sep (init :: segs) :=
  foldl_sep_eq_intercalate_go sep segs init

theorem existsPath_of_mem_dirs {fs : FS} {p : String} (h : p ∈ fs.dirs) :
    fs.existsPath p = true := by
  simp only [FS.existsPath, FS.entryPaths, List.contains_eq_any_beq,
    List.any_eq_true]
  exact ⟨p, List.mem_append_left _ h, by simp⟩

theorem existsPath_false_of_clean {fs : FS} {v : String}
    (hclean : ∀ p ∈ fs.entryPaths, pathUnder v p = false) :
    fs.existsPath v = false := by
  cases hx : fs.existsPath v with
  | false => rfl
  | true =>
      simp only [FS.existsPath, FS.entryPaths, List.contains_eq_any_beq,
        List.any_eq_true] at hx
      obtain ⟨q, hq, hbeq⟩ := hx
      rw [beq_iff_eq] at hbeq
      subst hbeq
      exact absurd (pathUnder_refl v) (by simp [hclean _ hq])

/-- Shape of a successful `InitRepository` run: the four scaffold
directories are created in order, then `description` and `HEAD` are written
with 1024-byte `ostream::write` calls, and the four diagnostic lines are
printed. -/
theorem initRepository_success_shape (w : String) (fs : FS)
    (mem : Nat → Nat → Char) (hw : fs.isDirectory w = true)
    (hne : fs.existsPath (vcsdirStr w) = false
      ∨ fs.isEmptyDir (vcsdirStr w) = true) :
    (Repository.construct w).1.InitRepository mem fs
      = (.ok (),
         (((((fs.createDirectories (branchesPath w)).createDirectories
                (objectsPath w)).createDirectories
                  (refsTagsPath w)).createDirectories
                    (refsHeadsPath w)).writeFile
            (vcsdirStr w ++ "description")
            (writeBytes (mem 0) descLit 1024)).writeFile
              (vcsdirStr w ++ "HEAD") (writeBytes (mem 1) headLit 1024),
         ["Created a Directory named " ++ branchesPath w ++ ".",
          "Created a Directory named " ++ objectsPath w ++ ".",
          "Created a Directory named " ++ refsTagsPath w ++ ".",
          "Created a Directory named " ++ refsHeadsPath w ++ "."]) := by
  rcases hne with hex | hemp
  · unfold vcsdirStr at hex
    simp [Repository.InitRepository, Repository.construct,
      Repository.RepositoryPath, hw, hex, branchesPath, objectsPath,
      refsTagsPath, refsHeadsPath, vcsdirStr, String.append_assoc]
  · unfold vcsdirStr at hemp
    simp [Repository.InitRepository, Repository.construct,
      Repository.RepositoryPath, hw, hemp, branchesPath, objectsPath,
      refsTagsPath, refsHeadsPath, vcsdirStr, String.append_assoc]

/-- Shape of an `InitRepository` run whose worktree is not a directory:
the first check throws, before any filesystem modification or printing. -/
theorem initRepository_not_directory_shape (w : String) (fs : FS)
    (mem : Nat → Nat → Char) (h : fs.isDirectory w = false) :
    (Repository.construct w).1.InitRepository mem fs
      = (.error (.runtimeError (w ++ " is not a directory !")), fs, []) := by
  simp [Repository.InitRepository, Repository.construct, h]

/-! ## Claims -/

/-- C2: on a worktree that is an existing directory with nothing at or
below the metadata-directory path (on a real filesystem this is exactly
"no metadata directory present": no entry can exist below a directory that
does not exist), `InitRepository` succeeds and creates the `branches`,
`objects`, `refs\tags` and `refs\heads` scaffold directories, and the
created `refs\heads` directory is empty. -/
theorem initRepository_scaffold (w : String) (fs : FS)
    (mem : Nat → Nat → Char) (hw : fs.isDirectory w = true)
    (hclean : ∀ p ∈ fs.entryPaths, pathUnder (vcsdirStr w) p = false) :
    ((Repository.construct w).1.InitRepository mem fs).1 = .ok ()
      ∧ branchesPath w
          ∈ ((Repository.construct w).1.InitRepository mem fs).2.1.dirs
      ∧ objectsPath w
          ∈ ((Repository.construct w).1.InitRepository mem fs).2.1.dirs
      ∧ refsTagsPath w
          ∈ ((Repository.construct w).1.InitRepository mem fs).2.1.dirs
      ∧ refsHeadsPath w
          ∈ ((Repository.construct w).1.InitRepository mem fs).2.1.dirs
      ∧ ((Repository.construct w).1.InitRepository mem fs).2.1.isEmptyDir
          (refsHeadsPath w) = true := by
  have hex := existsPath_false_of_clean hclean
  rw [initRepository_success_shape w fs mem hw (Or.inl hex)]
  refine ⟨rfl, ?_, ?_, ?_, ?_, ?_⟩
  · exact mem_dirs_createDirectories_mono _ _ _
      (mem_dirs_createDirectories_mono _ _ _
        (mem_dirs_createDirectories_mono _ _ _
          (mem_dirs_createDirectories_self _ _)))
  · exact mem_dirs_createDirectories_mono _ _ _
      (mem_dirs_createDirectories_mono _ _ _
        (mem_dirs_createDirectories_self _ _))
  · exact mem_dirs_createDirectories_mono _ _ _
      (mem_dirs_createDirectories_self _ _)
  · exact mem_dirs_createDirectories_self _ _
  · simp only [FS.isEmptyDir, List.all_eq_true]
    intro q hq
    rcases entryPaths_writeFile _ _ _ _ hq with rfl | hq
    · have hpu : pathUnder (refsHeadsPath w) (vcsdirStr w ++ "HEAD")
          = false := by
        simp only [refsHeadsPath, vcsdirStr, String.append_assoc]
        rw [pathUnder_append_left]
        decide
      simp [hpu]
    rcases entryPaths_writeFile _ _ _ _ hq with rfl | hq
    · have hpu : pathUnder (refsHeadsPath w) (vcsdirStr w ++ "description")
          = false := by
        simp only [refsHeadsPath, vcsdirStr, String.append_assoc]
        rw [pathUnder_append_left]
        decide
      simp [hpu]
    rcases entryPaths_createDirectories _ _ _ hq with rfl | hq
    · simp
    rcases entryPaths_createDirectories _ _ _ hq with rfl | hq
    · have hpu : pathUnder (refsHeadsPath w) (refsTagsPath w) = false := by
        simp only [refsHeadsPath, refsTagsPath, vcsdirStr,
          String.append_assoc]
        rw [pathUnder_append_left]
        decide
      simp [hpu]
    rcases entryPaths_createDirectories _ _ _ hq with rfl | hq
    · have hpu : pathUnder (refsHeadsPath w) (objectsPath w) = false := by
        simp only [refsHeadsPath, objectsPath, vcsdirStr,
          String.append_assoc]
        rw [pathUnder_append_left]
        decide
      simp [hpu]
    rcases entryPaths_createDirectories _ _ _ hq with rfl | hq
    · have hpu : pathUnder (refsHeadsPath w) (branchesPath w) = false := by
        simp only [refsHeadsPath, branchesPath, vcsdirStr,
          String.append_assoc]
        rw [pathUnder_append_left]
        decide
      simp [hpu]
    · have h1 : pathUnder (vcsdirStr w) (refsHeadsPath w) = true :=
        pathUnder_append _ _
      cases hpu : pathUnder (refsHeadsPath w) q with
      | false => simp [hpu]
      | true =>
          have h2 := pathUnder_trans h1 hpu
          rw [hclean q hq] at h2
          exact absurd h2 (by simp)

/-- Witness for C2: a worktree directory `"w"` on an otherwise empty
filesystem. -/
theorem initRepository_scaffold_witness :
    ((Repository.construct "w").1.InitRepository (fun _ _ => 'A')
        ⟨["w"], []⟩).1 = .ok ()
      ∧ branchesPath "w" ∈ ((Repository.construct "w").1.InitRepository
          (fun _ _ => 'A') ⟨["w"], []⟩).2.1.dirs :=
  let h := initRepository_scaffold "w" ⟨["w"], []⟩ (fun _ _ => 'A')
    (by decide) (by decide)
  ⟨h.1, h.2.1⟩

/-- C8: when the worktree is a directory and the metadata directory already
exists, `InitRepository` succeeds exactly when that metadata directory is
empty; when it contains any entry the call throws. -/
theorem initRepository_existing_metadata_iff (w : String) (fs : FS)
    (mem : Nat → Nat → Char) (hw : fs.isDirectory w = true)
    (hv : vcsdirStr w ∈ fs.dirs) :
    ((Repository.construct w).1.InitRepository mem fs).1 = .ok ()
      ↔ fs.isEmptyDir (vcsdirStr w) = true := by
  have hex : fs.existsPath (vcsdirStr w) = true := existsPath_of_mem_dirs hv
  cases hemp : fs.isEmptyDir (vcsdirStr w) with
  | false =>
      unfold vcsdirStr at hex hemp
      simp [Repository.InitRepository, Repository.construct, hw, hex, hemp]
  | true =>
      unfold vcsdirStr at hex hemp
      simp [Repository.InitRepository, Repository.construct,
        Repository.RepositoryPath, hw, hex, hemp]

/-- Witness for C8: on a filesystem where the metadata directory exists and
is empty, init succeeds. -/
theorem initRepository_existing_metadata_iff_witness :
    ((Repository.construct "w").1.InitRepository (fun _ _ => 'A')
        ⟨["w", "w\\.VCS++\\"], []⟩).1 = .ok () :=
  (initRepository_existing_metadata_iff "w" ⟨["w", "w\\.VCS++\\"], []⟩
    (fun _ _ => 'A') (by decide) (by decide)).mpr (by decide)

/-- C9: the string returned by `RepositoryPath` equals the
metadata-directory path followed by each segment prefixed with a separator,
and it is identical whether the `create` flag is true or false — the flag
only controls the directory-creation side effect. -/
theorem repositoryPath_value (repo : Repository) (segs : List String)
    (fs : FS) :
    (repo.RepositoryPath segs true fs).1 = (repo.RepositoryPath segs false fs).1
      ∧ (repo.RepositoryPath segs false fs).1
          = segs.foldl (fun acc elem => acc ++ "\\" ++ elem) repo.m_vcsdir :=
  ⟨rfl, rfl⟩

/-- C4, counterexample: `RepositoryPath` does not join path segments with
forward-slash separators — at worktree `"w"` and segment list `["a"]` its
result differs from the forward-slash join of the same segments. -/
theorem repositoryPath_not_forward_slash :
    ((Repository.construct "w").1.RepositoryPath ["a"] false ⟨["w"], []⟩).1
      ≠ repositoryPathSpec (Repository.construct "w").1.m_vcsdir ["a"] := by
  decide

/-- C4, amended: internal paths are joined with backslash separators
(Windows style) regardless of host OS — `RepositoryPath` returns the
segments interspersed with `"\\"` after the metadata-directory path, and the
metadata-directory path itself is the worktree followed by `"\\.VCS++\\"`. -/
theorem repositoryPath_backslash_join (w : String) (segs : List String)
    (create : Bool) (fs : FS) :
    ((Repository.construct w).1.RepositoryPath segs create fs).1
        = String.intercalate "\\" (vcsdirStr w :: segs)
      ∧ (Repository.construct w).1.m_vcsdir = vcsdirStr w := by
  refine ⟨?_, rfl⟩
  cases create <;>
    exact foldl_sep_eq_intercalate "\\" (vcsdirStr w) segs

/-- C7: when the worktree is not an existing directory, `InitRepository`
throws before touching the filesystem: the result is the thrown
`runtime_error`, the filesystem is returned unchanged, and nothing is
printed. -/
theorem initRepository_worktree_not_directory (w : String) (fs : FS)
    (mem : Nat → Nat → Char) (h : fs.isDirectory w = false) :
    (Repository.construct w).1.InitRepository mem fs
      = (.error (.runtimeError (w ++ " is not a directory !")), fs, []) :=
  initRepository_not_directory_shape w fs mem h

/-- Witness for C7 at the empty filesystem. -/
theorem initRepository_worktree_not_directory_witness :
    (Repository.construct "w").1.InitRepository (fun _ _ => 'A') ⟨[], []⟩
      = (.error (.runtimeError ("w" ++ " is not a directory !")), ⟨[], []⟩, []) :=
  initRepository_worktree_not_directory "w" ⟨[], []⟩ (fun _ _ => 'A') (by decide)

/-- C5, counterexample: `add` is one of the spec's command set, yet the
dispatch in `VCS::run` ignores it — no core operation is invoked. -/
theorem dispatch_ignores_add :
    "add" ∈ specCommands ∧ VCS.dispatch "add" = none := by
  decide

/-- C5, amended: of the spec's command set only `init` is dispatched to a
core operation; every other command in the set is silently ignored. -/
theorem dispatch_only_init :
    VCS.dispatch "init" = some CoreOp.init
      ∧ ∀ cmd ∈ specCommands, cmd ≠ "init" → VCS.dispatch cmd = none := by
  refine ⟨rfl, fun cmd _ hne => ?_⟩
  simp [VCS.dispatch, hne]

/-- Witness for the amended C5 at the command `commit`. -/
theorem dispatch_only_init_witness : VCS.dispatch "commit" = none :=
  dispatch_only_init.2 "commit" (by decide) (by decide)

set_option maxRecDepth 400000 in
/-- C1 (code bug): after a successful init on worktree `"w"`, the `HEAD`
file does not hold exactly the 23-byte line `ref: refs/heads/master\n` —
the source calls `head.write("ref: refs/heads/master\n", 1024)`, so the
file holds 1024 bytes: the 23 literal characters, the literal's NUL
terminator, and 1000 bytes read past the end of the literal's storage
(undefined behavior; here evaluated with the out-of-bounds memory filled
with `'A'`). -/
theorem initRepository_head_overrun :
    ((Repository.construct "w").1.InitRepository (fun _ _ => 'A')
        ⟨["w"], []⟩).1 = .ok ()
      ∧ ((Repository.construct "w").1.InitRepository (fun _ _ => 'A')
          ⟨["w"], []⟩).2.1.fileContent (vcsdirStr "w" ++ "HEAD")
          = some (writeBytes (fun _ => 'A') headLit 1024)
      ∧ (writeBytes (fun _ => 'A') headLit 1024).length = 1024
      ∧ headLit.data.length = 23
      ∧ (writeBytes (fun _ => 'A') headLit 1024).take 23 = headLit.data
      ∧ writeBytes (fun _ => 'A') headLit 1024 ≠ headLit.data := by
  decide

/-- C3, counterexample: repository construction prints directly to standard
output — its printed-line list at worktree `"w"` is not empty. -/
theorem construct_prints :
    (Repository.construct "w").2 ≠ ([] : List String) := by
  decide

/-- C3, amended: construction and `InitRepository` print diagnostics
directly to standard output (construction always prints the metadata path;
a successful init prints one `Created a Directory` line per scaffold
directory), and failures are reported by throwing the untagged
`std::runtime_error` carrying only a message string. -/
theorem construct_init_diagnostics (w : String) (fs : FS)
    (mem : Nat → Nat → Char) :
    (Repository.construct w).2 = [vcsdirStr w ++ " : Path for the VCS++ !"]
      ∧ (((Repository.construct w).1.InitRepository mem fs).1 = .ok () →
          ((Repository.construct w).1.InitRepository mem fs).2.2
            = ["Created a Directory named " ++ branchesPath w ++ ".",
               "Created a Directory named " ++ objectsPath w ++ ".",
               "Created a Directory named " ++ refsTagsPath w ++ ".",
               "Created a Directory named " ++ refsHeadsPath w ++ "."])
      ∧ ∀ e, ((Repository.construct w).1.InitRepository mem fs).1 = .error e
          → ∃ msg, e = CppExn.runtimeError msg := by
  refine ⟨rfl, ?_, ?_⟩
  · cases hw : fs.isDirectory w with
    | false =>
        intro hok
        rw [initRepository_not_directory_shape w fs mem hw] at hok
        exact absurd hok (by simp)
    | true =>
        cases hex : fs.existsPath (vcsdirStr w) with
        | false =>
            rw [initRepository_success_shape w fs mem hw (Or.inl hex)]
            intro _
            rfl
        | true =>
            cases hemp : fs.isEmptyDir (vcsdirStr w) with
            | true =>
                rw [initRepository_success_shape w fs mem hw (Or.inr hemp)]
                intro _
                rfl
            | false =>
                intro hok
                unfold vcsdirStr at hex hemp
                simp [Repository.InitRepository, Repository.construct, hw,
                  hex, hemp] at hok
  · intro e _
    cases e with
    | runtimeError msg => exact ⟨msg, rfl⟩

theorem digit_char_range :
    ∀ d < 10, 48 ≤ (Char.ofNat (48 + d)).toNat
      ∧ (Char.ofNat (48 + d)).toNat ≤ 57 := by
  decide

theorem natDigits_range (n : Nat) :
    ∀ c ∈ natDigits n, 48 ≤ c.toNat ∧ c.toNat ≤ 57 := by
  induction n using Nat.strong_induction_on with
  | _ n ih =>
      rw [natDigits]
      split
      · intro c hc
        rw [List.mem_singleton] at hc
        subst hc
        exact digit_char_range n (by omega)
      · intro c hc
        rw [List.mem_append] at hc
        rcases hc with hc | hc
        · exact ih (n / 10) (Nat.div_lt_self (by omega) (by omega)) c hc
        · rw [List.mem_singleton] at hc
          subst hc
          exact digit_char_range (n % 10) (Nat.mod_lt n (by omega))

theorem nul_not_mem_natDigits (n : Nat) : Char.ofNat 0 ∉ natDigits n := by
  intro hmem
  have h := (natDigits_range n _ hmem).1
  exact absurd h (by decide)

theorem space_not_mem_natDigits (n : Nat) : ' ' ∉ natDigits n := by
  intro hmem
  have h := (natDigits_range n _ hmem).1
  exact absurd h (by decide)

theorem append_sep_inj (c : Char) :
    ∀ (a b x y : List Char), c ∉ a → c ∉ b →
      a ++ c :: x = b ++ c :: y → a = b ∧ x = y := by
  intro a
  induction a with
  | nil =>
      intro b x y _ hb h
      cases b with
      | nil =>
          simp only [List.nil_append, List.cons.injEq] at h
          exact ⟨rfl, h.2⟩
      | cons d b' =>
          simp only [List.nil_append, List.cons_append,
            List.cons.injEq] at h
          exact absurd (h.1 ▸ List.mem_cons_self d b') hb
  | cons d a' ih =>
      intro b x y ha hb h
      cases b with
      | nil =>
          simp only [List.cons_append, List.nil_append,
            List.cons.injEq] at h
          exact absurd (h.1 ▸ List.mem_cons_self d a') ha
      | cons d' b' =>
          simp only [List.cons_append, List.cons.injEq] at h
          obtain ⟨hd, htl⟩ := h
          have ha' : c ∉ a' := fun hx => ha (List.mem_cons_of_mem d hx)
          have hb' : c ∉ b' := fun hx => hb (List.mem_cons_of_mem d' hx)
          obtain ⟨h1, h2⟩ := ih b' x y ha' hb' htl
          exact ⟨by rw [hd, h1], h2⟩

theorem space_not_mem_name (t : ObjType) : ' ' ∉ t.name.data := by
  cases t <;> decide

theorem nul_not_mem_name (t : ObjType) : Char.ofNat 0 ∉ t.name.data := by
  cases t <;> decide

theorem objType_name_inj {t1 t2 : ObjType}
    (h : t1.name.data = t2.name.data) : t1 = t2 := by
  cases t1 <;> cases t2 <;> revert h <;> decide

theorem nul_not_mem_header (t : ObjType) (n : Nat) :
    Char.ofNat 0 ∉ t.name.data ++ ' ' :: natDigits n := by
  intro hmem
  rw [List.mem_append] at hmem
  rcases hmem with hmem | hmem
  · exact nul_not_mem_name t hmem
  · rw [List.mem_cons] at hmem
    rcases hmem with hmem | hmem
    · exact absurd hmem (by decide)
    · exact nul_not_mem_natDigits n hmem

/-- Deterministic serialization is injective: equal serialized bytes force
equal type and payload (the NUL after the header delimits the payload, and
the space after the type name delimits the name). -/
theorem serializeObj_inj {t1 t2 : ObjType} {p1 p2 : List Char}
    (h : serializeObj t1 p1 = serializeObj t2 p2) : t1 = t2 ∧ p1 = p2 := by
  unfold serializeObj at h
  obtain ⟨hhead, hpay⟩ := append_sep_inj (Char.ofNat 0) _ _ _ _
    (nul_not_mem_header t1 p1.length) (nul_not_mem_header t2 p2.length) h
  obtain ⟨hname, _⟩ := append_sep_inj ' ' _ _ _ _
    (space_not_mem_name t1) (space_not_mem_name t2) hhead
  exact ⟨objType_name_inj hname, hpay⟩

/-- C6 (modelled from the spec — `src/` has no object store): for every
object type and payload, `Get` of the id returned by `Put` yields the same
type and payload, in any well-formed store and for any collision-free hash
function. -/
theorem objectStore_get_put {α : Type} [DecidableEq α]
    (hash : List Char → α) (hinj : Function.Injective hash)
    (s : ObjectStore α) (hwf : s.wf hash) (t : ObjType) (P : List Char) :
    (s.put hash t P).2.get hash (s.put hash t P).1 = .ok (t, P) := by
  simp only [ObjectStore.put]
  cases hfind : s.entries.find? fun e => e.1 == hash (serializeObj t P) with
  | none =>
      simp only [hfind, Option.isSome_none, Bool.false_eq_true, if_false,
        ObjectStore.get]
      rw [List.find?_cons_of_pos _ (by simp)]
      simp
  | some e =>
      obtain ⟨k, t', p'⟩ := e
      have hkey : k = hash (serializeObj t P) := by
        have := List.find?_some hfind
        rwa [beq_iff_eq] at this
      have hmem := List.mem_of_find?_eq_some hfind
      have hser : serializeObj t' p' = serializeObj t P :=
        hinj (by rw [hwf _ hmem, hkey])
      obtain ⟨ht, hp⟩ := serializeObj_inj hser
      subst ht hp
      simp only [hfind, Option.isSome_some, if_true, ObjectStore.get,
        hfind, hser, beq_self_eq_true, if_true]

/-- Witness for C6: the identity hash on serialized bytes (injective) over
the empty store, a blob with payload `"hi"`. -/
theorem objectStore_get_put_witness :
    ((ObjectStore.put (α := List Char) id ⟨[]⟩ ObjType.blob "hi".data).2.get
        id
        (ObjectStore.put (α := List Char) id ⟨[]⟩ ObjType.blob
          "hi".data).1) = .ok (ObjType.blob, "hi".data) :=
  objectStore_get_put id (fun _ _ h => h) ⟨[]⟩
    (fun e he => absurd he (List.not_mem_nil e)) ObjType.blob "hi".data

/-- Witness for the amended C3: a successful init on worktree `"w"` prints
the four directory-creation lines. -/
theorem construct_init_diagnostics_witness :
    ((Repository.construct "w").1.InitRepository (fun _ _ => 'A')
        ⟨["w"], []⟩).2.2
      = ["Created a Directory named " ++ branchesPath "w" ++ ".",
         "Created a Directory named " ++ objectsPath "w" ++ ".",
         "Created a Directory named " ++ refsTagsPath "w" ++ ".",
         "Created a Directory named " ++ refsHeadsPath "w" ++ "."] :=
  (construct_init_diagnostics "w" ⟨["w"], []⟩ (fun _ _ => 'A')).2.1
    (by decide)
